import Mathlib

/-!
Verification development for the HRMS-Lite attendance-history and
analytics engine.

The TypeScript sources are embedded shallowly:

* timestamps are naturals counting milliseconds since the Unix epoch,
  with the server clock taken to be UTC (the JS code runs `Date`
  arithmetic on the server's local clock);
* the numeric rate computations, done in IEEE doubles by JS, are
  modelled over `ℚ`, with `Number.prototype.toFixed(2)` modelled as
  round-half-up to two decimals (the tie-is-rounded-up choice matches
  the ECMAScript `toFixed` specification of picking the larger
  candidate);
* Mongo collections are lists of records; `find`, `findOne`,
  `countDocuments` and the aggregation stages are the corresponding
  list operations, with `$group` bucketing keys in first-encounter
  order and `.sort(...)` / `$sort` modelled as a stable insertion sort;
* HTTP responses are inductive result types carrying the
  status-relevant payload.
-/

namespace HRMS

/-! ## Clock and calendar model -/

/-- Milliseconds per civil day. -/
def msPerDay : Nat := 86400000

/-- Truncate a timestamp to 00:00:00.000 of its civil day, the model of
`d.setHours(0, 0, 0, 0)` on a UTC clock. -/
def startOfDay (t : Nat) : Nat := t / msPerDay * msPerDay

/-- Last millisecond of the civil day of `t`, the model of
`d.setHours(23, 59, 59, 999)` on a UTC clock. -/
def endOfDay (t : Nat) : Nat := t / msPerDay * msPerDay + (msPerDay - 1)

/-- Length in days of a civil year (Gregorian). -/
def daysInYear (y : Nat) : Nat :=
  if (y % 4 = 0 ∧ y % 100 ≠ 0) ∨ y % 400 = 0 then 366 else 365

/-- Length in days of month `m` of year `y` (1-based months). -/
def daysInMonth (y m : Nat) : Nat :=
  if m = 2 then (if (y % 4 = 0 ∧ y % 100 ≠ 0) ∨ y % 400 = 0 then 29 else 28)
  else if m = 4 ∨ m = 6 ∨ m = 9 ∨ m = 11 then 30 else 31

/-- Timestamp (ms) of midnight UTC of the civil date `y-m-d`
(for dates from 1970 on); the model of `new Date("YYYY-MM-DD")`. -/
def dateMs (y m d : Nat) : Nat :=
  (((List.range (y - 1970)).map (fun i => daysInYear (1970 + i))).sum +
   ((List.range (m - 1)).map (fun i => daysInMonth y (1 + i))).sum + (d - 1)) * msPerDay

/-- Civil date (year, month, day) of a day count since the epoch
(the classic days-to-civil conversion, valid for days ≥ 0). -/
def civilFromDays (z : Nat) : Nat × Nat × Nat :=
  let days := z + 719468
  let era := days / 146097
  let doe := days % 146097
  let yoe := (doe - doe / 1460 + doe / 36524 - doe / 146096) / 365
  let y := yoe + era * 400
  let doy := doe - (365 * yoe + yoe / 4 - yoe / 100)
  let mp := (5 * doy + 2) / 153
  let d := doy - (153 * mp + 2) / 5 + 1
  let m := if mp < 10 then mp + 3 else mp - 9
  (if m ≤ 2 then y + 1 else y, m, d)

/-- Two-digit zero-padded rendering, the model of
`String(n).padStart(2, '0')`. -/
def pad2 (n : Nat) : String :=
  (if n < 10 then "0" else "") ++ toString n

/-- English month name, as produced by
`toLocaleDateString('en-US', { month: 'long' })`. -/
def monthName (m : Nat) : String :=
  match m with
  | 1 => "January" | 2 => "February" | 3 => "March" | 4 => "April"
  | 5 => "May" | 6 => "June" | 7 => "July" | 8 => "August"
  | 9 => "September" | 10 => "October" | 11 => "November" | 12 => "December"
  | _ => ""

/-- Month key `YYYY-MM` of a timestamp, the model of
```${date.getFullYear()}-${String(date.getMonth() + 1).padStart(2, '0')}` ``. -/
def monthKeyOfMs (t : Nat) : String :=
  let c := civilFromDays (t / msPerDay)
  toString c.1 ++ "-" ++ pad2 c.2.1

/-- Month label such as `February 2026`, the model of
`toLocaleDateString('en-US', { year: 'numeric', month: 'long' })`. -/
def monthLabelOfMs (t : Nat) : String :=
  let c := civilFromDays (t / msPerDay)
  monthName c.2.1 ++ " " ++ toString c.1

/-! ## String primitives

The JS string operations are modelled on the character list backing a
`String`, which keeps them reducible inside the kernel. -/

/-- ASCII uppercase of one character, the model of what
`String.prototype.toUpperCase` does on the identifiers at hand. -/
def upChar (c : Char) : Char :=
  if h : 97 ≤ c.toNat ∧ c.toNat ≤ 122 then
    Char.ofNatAux (c.toNat - 32) (Or.inl (by omega))
  else c

/-- ASCII lowercase of one character, the model of
`String.prototype.toLowerCase` on the identifiers at hand. -/
def downChar (c : Char) : Char :=
  if h : 65 ≤ c.toNat ∧ c.toNat ≤ 90 then
    Char.ofNatAux (c.toNat + 32) (Or.inl (by omega))
  else c

/-- Model of `s.toUpperCase()`. -/
def upperString (s : String) : String := ⟨s.data.map upChar⟩

/-- Model of `s.toLowerCase()`. -/
def lowerString (s : String) : String := ⟨s.data.map downChar⟩

/-- Model of `s.trim()`. -/
def trimString (s : String) : String :=
  ⟨((s.data.dropWhile Char.isWhitespace).reverse.dropWhile Char.isWhitespace).reverse⟩

/-- Lexicographic `≤` on character lists by code point; `charsLe a b`
models `a.localeCompare(b) <= 0` for the ASCII data at hand. -/
def charsLe : List Char → List Char → Bool
  | [], _ => true
  | _ :: _, [] => false
  | a :: as, b :: bs =>
    if a.toNat < b.toNat then true
    else if b.toNat < a.toNat then false
    else charsLe as bs

/-- `strLe a b` models `a.localeCompare(b) <= 0`. -/
def strLe (a b : String) : Bool := charsLe a.data b.data

/-- Does `hay` contain `needle` as a contiguous substring?  Model of
`hay.includes(needle)`. -/
def containsSub (hay needle : List Char) : Bool :=
  match hay with
  | [] => needle.isEmpty
  | _ :: rest => needle.isPrefixOf hay || containsSub rest needle

/-- Value of a list of decimal digits. -/
def digitsToNat (l : List Char) : Nat :=
  l.foldl (fun acc c => acc * 10 + (c.toNat - 48)) 0

/-- Leading-decimal-digits integer parse: the model of
`parseInt(s, 10)` (`none` for `NaN`). -/
def jsParseInt (s : String) : Option Nat :=
  let ds := s.data.takeWhile Char.isDigit
  if ds.isEmpty then none else some (digitsToNat ds)

/-! ## Data model -/

/-- A stored employee document (`models/Employee`). -/
structure Employee where
  employeeId : String
  fullName : String
  email : String
  department : String
  createdAt : Nat
deriving DecidableEq, Repr

/-- A stored attendance document (`models/Attendance`): `date` is
normalized to midnight by the mark-attendance route, `status` is the
raw string. -/
structure AttendanceRecord where
  employeeId : String
  date : Nat
  status : String
  createdAt : Nat
deriving DecidableEq, Repr

/-- The denormalized employee identity attached to enriched records. -/
structure EmployeeSnapshot where
  employeeId : String
  fullName : String
  email : String
  department : String
deriving DecidableEq, Repr

/-- Snapshot of an employee, as built inline by the history routes. -/
def snapshotOf (e : Employee) : EmployeeSnapshot :=
  ⟨e.employeeId, e.fullName, e.email, e.department⟩

/-- An attendance record with the employee snapshot attached
(`{...record.toObject(), employee: ...}`). -/
structure EnrichedRecord where
  employeeId : String
  date : Nat
  status : String
  createdAt : Nat
  employee : Option EmployeeSnapshot
deriving DecidableEq, Repr

/-- Look up the owning employee and attach its snapshot (`null` when
the employee no longer exists). -/
def enrich (emps : List Employee) (r : AttendanceRecord) : EnrichedRecord :=
  ⟨r.employeeId, r.date, r.status, r.createdAt,
    (emps.find? (fun e => e.employeeId == r.employeeId)).map snapshotOf⟩

/-- Mongo `.sort({date: -1, createdAt: -1})`: date newest first,
same-day ties by creation recency. -/
def sortDateDesc (l : List AttendanceRecord) : List AttendanceRecord :=
  l.insertionSort (fun a b => b.date < a.date ∨ (b.date = a.date ∧ b.createdAt ≤ a.createdAt))

/-! ## POST /attendance (attendanceRoutes.ts, router.post) -/

/-- Body of a mark-attendance request.  The `date` field is the parsed
value of the body's date string (requests whose date fails to parse are
outside this model). -/
structure MarkRequest where
  employeeId : String
  date : Nat
  status : String
deriving DecidableEq, Repr

/-- Outcome of `POST /attendance`. -/
inductive MarkResult where
  | badRequest (msg : String)
  | notFound
  | conflict
  | created (r : AttendanceRecord)
deriving DecidableEq, Repr

/-- The mark-attendance route: required-fields check, status enum
check, employee lookup by the submitted id verbatim, duplicate check on
the (employeeId, normalized date) pair, then insert.  Returns the
response together with the resulting attendance collection. -/
def markAttendance (now : Nat) (req : MarkRequest) (emps : List Employee)
    (att : List AttendanceRecord) : MarkResult × List AttendanceRecord :=
  if req.employeeId = "" ∨ req.status = "" then
    (.badRequest "All fields are required: employeeId, date, status", att)
  else if ¬(req.status = "Present" ∨ req.status = "Absent") then
    (.badRequest "Status must be either Present or Absent", att)
  else
    match emps.find? (fun e => e.employeeId == req.employeeId) with
    | none => (.notFound, att)
    | some _ =>
      let attendanceDate := startOfDay req.date
      match att.find? (fun a => a.employeeId == req.employeeId && a.date == attendanceDate) with
      | some _ => (.conflict, att)
      | none =>
        let r : AttendanceRecord := ⟨req.employeeId, attendanceDate, req.status, now⟩
        (.created r, att ++ [r])

/-- The client-side future-date guard of `AttendanceManagement.handleSubmit`:
`today.setHours(23, 59, 59, 999); selectedDate > today` blocks the
submission. -/
def frontendRejectsFutureDate (now date : Nat) : Bool :=
  endOfDay now < date

/-! ## POST /employees (employeeRoutes.ts, router.post) -/

/-- ASCII letter or digit. -/
def isAlnumChar (c : Char) : Bool :=
  (48 ≤ c.toNat ∧ c.toNat ≤ 57) ∨ (65 ≤ c.toNat ∧ c.toNat ≤ 90) ∨
    (97 ≤ c.toNat ∧ c.toNat ≤ 122)

/-- Characters admitted in the local part of the route's email regex. -/
def localCharOk (c : Char) : Bool :=
  isAlnumChar c || ".!#$%&'*+/=?^_`\x7b|\x7d~-".data.contains c

/-- One domain label of the email regex:
`[a-zA-Z0-9](?:[a-zA-Z0-9-]{0,61}[a-zA-Z0-9])?`. -/
def labelOk (l : List Char) : Bool :=
  match l with
  | [] => false
  | [c] => isAlnumChar c
  | c :: rest =>
    isAlnumChar c && rest.length ≤ 62 &&
      (rest.dropLast.all fun x => isAlnumChar x || x = '-') &&
      isAlnumChar (rest.getLastD '-')

/-- The route's email-format regex. -/
def emailFormatOk (s : String) : Bool :=
  match s.data.splitOn '@' with
  | [loc, dom] => (!loc.isEmpty) && loc.all localCharOk && (dom.splitOn '.').all labelOk
  | _ => false

/-- The Employee schema's employeeId validator: `[a-zA-Z0-9_-]+`, at
least 2 characters. -/
def idPatternOk (s : String) : Bool :=
  (!s.data.isEmpty) && s.data.all (fun c => isAlnumChar c || c = '_' || c = '-') &&
    2 ≤ s.data.length

/-- Body of a create-employee request. -/
structure EmployeeRequest where
  employeeId : String
  fullName : String
  email : String
  department : String
deriving DecidableEq, Repr

/-- Outcome of `POST /employees`. -/
inductive CreateResult where
  | badRequest (msg : String)
  | conflict (field : String)
  | created (e : Employee)
  | serverError
deriving DecidableEq, Repr

/-- The create-employee route: required fields, normalization
(employeeId upper-cased, email lower-cased, both trimmed), email format
check, uniqueness of the normalized id and email, then save (whose
schema validation re-checks the id pattern and the name length). -/
def createEmployee (now : Nat) (req : EmployeeRequest) (emps : List Employee) :
    CreateResult × List Employee :=
  if req.employeeId = "" ∨ req.fullName = "" ∨ req.email = "" ∨ req.department = "" then
    (.badRequest "All fields are required: employeeId, fullName, email, department", emps)
  else
    let normalizedEmployeeId := upperString (trimString req.employeeId)
    let normalizedEmail := lowerString (trimString req.email)
    if ¬ emailFormatOk normalizedEmail then
      (.badRequest "Invalid email format", emps)
    else if (emps.find? (fun e => e.employeeId == normalizedEmployeeId)).isSome then
      (.conflict "employeeId", emps)
    else if (emps.find? (fun e => e.email == normalizedEmail)).isSome then
      (.conflict "email", emps)
    else if ¬(idPatternOk normalizedEmployeeId ∧ 2 ≤ (trimString req.fullName).data.length) then
      (.serverError, emps)
    else
      let e : Employee :=
        ⟨normalizedEmployeeId, trimString req.fullName, normalizedEmail,
          trimString req.department, now⟩
      (.created e, emps ++ [e])

/-! ## History router (historyRoutes.ts) -/

/-- One month group of the history payload. -/
structure HistoryGroup where
  monthKey : String
  monthLabel : String
  records : List EnrichedRecord
deriving DecidableEq, Repr

/-- Group an enriched, already-sorted record list by month key in
first-encounter order, then sort the groups by key, newest first —
the `groupedByMonth` / `Object.values(...).sort(...)` passage. -/
def groupRecordsByMonth (l : List EnrichedRecord) : List HistoryGroup :=
  (((l.map (fun r => monthKeyOfMs r.date)).dedup).map (fun k =>
    { monthKey := k
      monthLabel := ((l.find? (fun r => monthKeyOfMs r.date == k)).map
        (fun r => monthLabelOfMs r.date)).getD ""
      records := l.filter (fun r => monthKeyOfMs r.date == k) })).insertionSort
    (fun a b => charsLe b.monthKey.data a.monthKey.data)

/-- Responses of the history router. -/
inductive HistoryResponse where
  | badRequest (msg : String)
  | notFound (msg : String)
  | fullHistory (groups : List HistoryGroup) (totalRecords : Nat)
  | monthHistory (monthKey monthLabel : String) (records : List EnrichedRecord)
      (totalRecords : Nat)
  | employeeHistory (employee : EmployeeSnapshot) (groups : List HistoryGroup)
      (totalRecords : Nat)
  | rangeHistory (records : List EnrichedRecord) (totalRecords : Nat)
  | noRoute
deriving DecidableEq, Repr

/-- `GET /history`: all attendance sorted by (date desc, createdAt
desc), enriched, grouped by month. -/
def fullHistoryHandler (emps : List Employee) (att : List AttendanceRecord) :
    HistoryResponse :=
  let enriched := (sortDateDesc att).map (enrich emps)
  .fullHistory (groupRecordsByMonth enriched) enriched.length

/-- `GET /history/:year/:month`: validate year 2000–2100 and month
1–12, filter the inclusive month window, enrich, return one month. -/
def yearMonthHandler (emps : List Employee) (att : List AttendanceRecord)
    (year month : String) : HistoryResponse :=
  match jsParseInt year with
  | none => .badRequest "Invalid year. Year must be between 2000 and 2100"
  | some yearNum =>
    if yearNum < 2000 ∨ 2100 < yearNum then
      .badRequest "Invalid year. Year must be between 2000 and 2100"
    else
      match jsParseInt month with
      | none => .badRequest "Invalid month. Month must be between 1 and 12"
      | some monthNum =>
        if monthNum < 1 ∨ 12 < monthNum then
          .badRequest "Invalid month. Month must be between 1 and 12"
        else
          let startDate := dateMs yearNum monthNum 1
          let endDate := dateMs yearNum monthNum (daysInMonth yearNum monthNum) + (msPerDay - 1)
          let filtered := att.filter (fun r => startDate ≤ r.date ∧ r.date ≤ endDate)
          let enriched := (sortDateDesc filtered).map (enrich emps)
          .monthHistory (toString yearNum ++ "-" ++ pad2 monthNum)
            (monthName monthNum ++ " " ++ toString yearNum) enriched enriched.length

/-- `GET /history/employee/:employeeId` (the handler itself): verify
the employee exists, fetch its records, group by month attaching the
one snapshot to every record. -/
def employeeHistoryHandler (emps : List Employee) (att : List AttendanceRecord)
    (employeeId : String) : HistoryResponse :=
  match emps.find? (fun e => e.employeeId == employeeId) with
  | none => .notFound "Employee not found"
  | some employee =>
    let records := sortDateDesc (att.filter (fun r => r.employeeId == employeeId))
    let enriched := records.map (fun r =>
      (⟨r.employeeId, r.date, r.status, r.createdAt, some (snapshotOf employee)⟩ :
        EnrichedRecord))
    .employeeHistory (snapshotOf employee) (groupRecordsByMonth enriched) records.length

/-- `GET /history/range` (the handler itself).  The two query
parameters are modelled post-parse: `none` for a missing parameter,
`some none` for one whose string `new Date(...)` turns into an Invalid
Date, `some (some t)` for a date that parsed to timestamp `t`. -/
def rangeHandler (emps : List Employee) (att : List AttendanceRecord)
    (startQ endQ : Option (Option Nat)) : HistoryResponse :=
  match startQ, endQ with
  | none, _ => .badRequest "Both startDate and endDate query parameters are required"
  | _, none => .badRequest "Both startDate and endDate query parameters are required"
  | some startP, some endP =>
    match startP, endP with
    | none, _ => .badRequest "Invalid date format. Use YYYY-MM-DD format"
    | _, none => .badRequest "Invalid date format. Use YYYY-MM-DD format"
    | some startMs, some endRaw =>
      let endMs := endOfDay endRaw
      if endMs < startMs then
        .badRequest "Start date must be before or equal to end date"
      else
        let filtered := att.filter (fun r => startMs ≤ r.date ∧ r.date ≤ endMs)
        let enriched := (sortDateDesc filtered).map (enrich emps)
        .rangeHistory enriched enriched.length

/-- A segment of an Express route pattern. -/
inductive RouteSeg where
  | lit (s : String)
  | param
deriving DecidableEq, Repr

/-- Does a route pattern match a path, segment by segment? -/
def matchesRoute : List RouteSeg → List String → Bool
  | [], [] => true
  | .lit s :: ps, x :: xs => s == x && matchesRoute ps xs
  | .param :: ps, _ :: xs => matchesRoute ps xs
  | _, _ => false

/-- The history router's GET routes in registration order:
`'/'`, `'/:year/:month'`, `'/employee/:employeeId'`, `'/range'`. -/
def historyRoutePatterns : List (List RouteSeg) :=
  [[], [.param, .param], [.lit "employee", .param], [.lit "range"]]

/-- Express dispatch on the history router: the first registered route
whose pattern matches the path handles the request (`none` when no
route matches).  Query parameters are only read by the range route. -/
def historyDispatch (emps : List Employee) (att : List AttendanceRecord)
    (path : List String) (startQ endQ : Option (Option Nat)) :
    Option HistoryResponse :=
  match historyRoutePatterns.findIdx? (fun p => matchesRoute p path) with
  | none => none
  | some 0 => some (fullHistoryHandler emps att)
  | some 1 =>
    match path with
    | [y, m] => some (yearMonthHandler emps att y m)
    | _ => some .noRoute
  | some 2 =>
    match path with
    | [_, eid] => some (employeeHistoryHandler emps att eid)
    | _ => some .noRoute
  | some _ =>
    some (rangeHandler emps att startQ endQ)

/-! ## GET /analytics/summary (analyticsRoutes.ts) -/

/-- Rendering of a two-decimal amount given in hundredths. -/
def renderCents (n : Nat) : String :=
  toString (n / 100) ++ "." ++ (if n % 100 < 10 then "0" else "") ++ toString (n % 100)

/-- Model of `q.toFixed(2)` for a nonnegative rate: round half up to
two decimals and render. -/
def jsToFixed2 (q : ℚ) : String := renderCents (⌊q * 100 + 1 / 2⌋).toNat

/-- The `overview` object of the summary response. -/
structure Overview where
  totalEmployees : Nat
  totalAttendanceRecords : Nat
  presentCount : Nat
  absentCount : Nat
  attendanceRate : String
deriving DecidableEq, Repr

/-- The overview block: the four `countDocuments` calls and the
guarded rate `(presentCount / totalAttendanceRecords * 100).toFixed(2)`
with `'0.00'` when there are no records. -/
def analyticsOverview (emps : List Employee) (att : List AttendanceRecord) : Overview :=
  let totalAttendanceRecords := att.length
  let presentCount := att.countP (fun r => r.status == "Present")
  let absentCount := att.countP (fun r => r.status == "Absent")
  { totalEmployees := emps.length
    totalAttendanceRecords := totalAttendanceRecords
    presentCount := presentCount
    absentCount := absentCount
    attendanceRate :=
      if 0 < totalAttendanceRecords then
        jsToFixed2 ((presentCount : ℚ) / (totalAttendanceRecords : ℚ) * 100)
      else "0.00" }

/-- One row of the top-employees report. -/
structure EmployeeRanking where
  employeeId : String
  fullName : String
  department : String
  presentDays : Nat
  absentDays : Nat
  totalDays : Nat
  attendanceRate : ℚ
deriving DecidableEq, Repr

/-- The `$group` stage of `topEmployeesByAttendance`: buckets by
`employeeId` in first-encounter order, each with
(presentDays, absentDays, totalDays). -/
def topGroups (att : List AttendanceRecord) : List (String × Nat × Nat × Nat) :=
  ((att.map (fun r => r.employeeId)).dedup).map (fun id =>
    (id, (att.filter (fun r => r.employeeId == id)).countP (fun r => r.status == "Present"),
      (att.filter (fun r => r.employeeId == id)).countP (fun r => r.status == "Absent"),
      (att.filter (fun r => r.employeeId == id)).length))

/-- The `$lookup`/`$unwind`/`$project` stages: inner-join each bucket
to its employee (buckets without one are dropped) and compute the
unrounded rate `presentDays / totalDays * 100`. -/
def topJoined (emps : List Employee) (att : List AttendanceRecord) : List EmployeeRanking :=
  (topGroups att).filterMap (fun g =>
    (emps.find? (fun e => e.employeeId == g.1)).map (fun e =>
      { employeeId := g.1, fullName := e.fullName, department := e.department
        presentDays := g.2.1, absentDays := g.2.2.1, totalDays := g.2.2.2
        attendanceRate := (g.2.1 : ℚ) / (g.2.2.2 : ℚ) * 100 : EmployeeRanking }))

/-- The `topEmployeesByAttendance` aggregation: `$group` by
`employeeId`, `$lookup`/`$unwind` dropping ids without an employee,
`$project` with the unrounded rate, `$sort` by `presentDays`
descending, `$limit 10`. -/
def topEmployeesByAttendance (emps : List Employee) (att : List AttendanceRecord) :
    List EmployeeRanking :=
  ((topJoined emps att).insertionSort (fun a b => b.presentDays ≤ a.presentDays)).take 10

/-! ## Presentation pipeline (AttendanceHistory component) -/

/-- A month group as served by `GET /history` and consumed by the
component. -/
structure AttendanceHistoryMonth where
  monthKey : String
  monthLabel : String
  records : List EnrichedRecord
deriving DecidableEq, Repr

/-- A flattened record tagged with its origin month key and label. -/
structure TaggedRecord where
  employeeId : String
  date : Nat
  status : String
  createdAt : Nat
  employee : Option EmployeeSnapshot
  monthKey : String
  monthLabel : String
deriving DecidableEq, Repr

/-- `allRecords`: flatten all month groups, tagging each record with
its group's month key and label. -/
def allRecords (historyData : List AttendanceHistoryMonth) : List TaggedRecord :=
  historyData.flatMap (fun month => month.records.map (fun r =>
    ⟨r.employeeId, r.date, r.status, r.createdAt, r.employee,
      month.monthKey, month.monthLabel⟩))

/-- The component's sort options. -/
inductive SortOption where
  | dateDesc | dateAsc | employeeAsc | employeeDesc
  | statusAsc | statusDesc | departmentAsc | departmentDesc
deriving DecidableEq, Repr

/-- The component's group-by options. -/
inductive GroupByOption where
  | month | department | employee | status | none
deriving DecidableEq, Repr

/-- The component's filter state.  The date-range inputs are modelled
post-parse; `useDateRange && startDate && endDate` is the boolean that
activates the range branch. -/
structure FilterConfig where
  selectedMonth : String
  useDateRange : Bool
  startDate : Option Nat
  endDate : Option Nat
  searchQuery : String
  statusFilter : String
  departmentFilter : String
deriving DecidableEq, Repr

/-- `filteredRecords`: date range (overriding month selection), status,
department and free-text search filters, in that order, all ANDed. -/
def filteredRecords (cfg : FilterConfig) (l : List TaggedRecord) : List TaggedRecord :=
  let afterDate :=
    match cfg.useDateRange, cfg.startDate, cfg.endDate with
    | true, some s, some e =>
      l.filter (fun r => s ≤ r.date ∧ r.date ≤ endOfDay e)
    | _, _, _ =>
      if cfg.selectedMonth ≠ "all" then l.filter (fun r => r.monthKey == cfg.selectedMonth)
      else l
  let afterStatus :=
    if cfg.statusFilter ≠ "all" then afterDate.filter (fun r => r.status == cfg.statusFilter)
    else afterDate
  let afterDept :=
    if cfg.departmentFilter ≠ "all" then
      afterStatus.filter (fun r =>
        ((r.employee.map (fun e => e.department)).getD "") == cfg.departmentFilter ∧
          r.employee.isSome)
    else afterStatus
  if (trimString cfg.searchQuery).data ≠ [] then
    let query := (lowerString (trimString cfg.searchQuery)).data
    afterDept.filter (fun r =>
      containsSub (lowerString (((r.employee.map (fun e => e.fullName)).getD ""))).data query ||
      containsSub (lowerString r.employeeId).data query ||
      containsSub (lowerString (((r.employee.map (fun e => e.department)).getD ""))).data query ||
      containsSub (lowerString (((r.employee.map (fun e => e.email)).getD ""))).data query)
  else afterDept

/-- Display name used by the employee sorts:
`r.employee?.fullName || r.employeeId`. -/
def sortName (r : TaggedRecord) : String :=
  match r.employee with
  | some e => if e.fullName = "" then r.employeeId else e.fullName
  | none => r.employeeId

/-- Department used by the department sorts:
`r.employee?.department || ''`. -/
def sortDept (r : TaggedRecord) : String :=
  match r.employee with
  | some e => e.department
  | none => ""

/-- `sortedRecords`: the eight comparator cases of the component's
`switch (sortBy)`, each a stable sort by the written comparator. -/
def sortedRecords (opt : SortOption) (l : List TaggedRecord) : List TaggedRecord :=
  match opt with
  | .dateDesc =>
    l.insertionSort (fun a b => b.date < a.date ∨ (b.date = a.date ∧ b.createdAt ≤ a.createdAt))
  | .dateAsc =>
    l.insertionSort (fun a b => a.date < b.date ∨ (a.date = b.date ∧ a.createdAt ≤ b.createdAt))
  | .employeeAsc => l.insertionSort (fun a b => charsLe (sortName a).data (sortName b).data)
  | .employeeDesc => l.insertionSort (fun a b => charsLe (sortName b).data (sortName a).data)
  | .statusAsc => l.insertionSort (fun a b => charsLe a.status.data b.status.data)
  | .statusDesc => l.insertionSort (fun a b => charsLe b.status.data a.status.data)
  | .departmentAsc => l.insertionSort (fun a b => charsLe (sortDept a).data (sortDept b).data)
  | .departmentDesc => l.insertionSort (fun a b => charsLe (sortDept b).data (sortDept a).data)

/-- One output group of the pipeline. -/
structure RecordGroup where
  groupKey : String
  groupLabel : String
  records : List TaggedRecord
deriving DecidableEq, Repr

/-- Build the groups for one grouping key function in first-encounter
order — the common `grouped[key] ||= ...; grouped[key].records.push`
pattern over an insertion-ordered object. -/
def buildGroups (key : TaggedRecord → String) (label : TaggedRecord → String)
    (l : List TaggedRecord) : List RecordGroup :=
  ((l.map key).dedup).map (fun k =>
    { groupKey := k
      groupLabel := ((l.find? (fun r => key r == k)).map label).getD ""
      records := l.filter (fun r => key r == k) })

/-- `groupedData`: the five cases of the component's `groupBy`. -/
def groupedData (opt : GroupByOption) (l : List TaggedRecord) : List RecordGroup :=
  match opt with
  | .none => [{ groupKey := "all", groupLabel := "All Records", records := l }]
  | .month =>
    (buildGroups (fun r => r.monthKey) (fun r => r.monthLabel) l).insertionSort
      (fun a b => charsLe b.groupKey.data a.groupKey.data)
  | .department =>
    (buildGroups (fun r => ((r.employee.map (fun e => e.department)).getD "Unknown"))
      (fun r => ((r.employee.map (fun e => e.department)).getD "Unknown")) l).insertionSort
      (fun a b => charsLe a.groupLabel.data b.groupLabel.data)
  | .employee =>
    (buildGroups (fun r => r.employeeId) (fun r => sortName r) l).insertionSort
      (fun a b => charsLe a.groupLabel.data b.groupLabel.data)
  | .status =>
    (buildGroups (fun r => r.status) (fun r => r.status) l).insertionSort
      (fun a b => charsLe b.groupKey.data a.groupKey.data)

/-! ## Reachability of the attendance store

Every attendance write of the application goes through the
mark-attendance route; the reachable attendance collections are those
obtainable from the empty collection by successful marks (interleaved
with arbitrary employee-collection states). -/

/-- Attendance collections reachable through `markAttendance`. -/
inductive ReachableAttendance : List AttendanceRecord → Prop where
  | nil : ReachableAttendance []
  | step (att att' : List AttendanceRecord) (now : Nat) (req : MarkRequest)
      (emps : List Employee) (r : AttendanceRecord) :
      ReachableAttendance att →
      markAttendance now req emps att = (.created r, att') →
      ReachableAttendance att'

/-! ## Helper lemmas -/

theorem charsLe_total (a b : List Char) : charsLe a b = true ∨ charsLe b a = true := by
  induction a generalizing b with
  | nil => exact Or.inl rfl
  | cons x xs ih =>
    cases b with
    | nil => exact Or.inr rfl
    | cons y ys =>
      by_cases h1 : x.toNat < y.toNat
      · left
        simp [charsLe, h1]
      · by_cases h2 : y.toNat < x.toNat
        · right
          simp [charsLe, h1, h2]
        · rcases ih ys with h | h
          · left
            simp [charsLe, h1, h2, h]
          · right
            simp [charsLe, h1, h2, h]

theorem charsLe_trans (a b c : List Char) (hab : charsLe a b = true)
    (hbc : charsLe b c = true) : charsLe a c = true := by
  induction a generalizing b c with
  | nil => rfl
  | cons x xs ih =>
    cases b with
    | nil => simp [charsLe] at hab
    | cons y ys =>
      cases c with
      | nil => simp [charsLe] at hbc
      | cons z zs =>
        by_cases hxy : x.toNat < y.toNat
        · by_cases hyz : y.toNat < z.toNat
          · simp [charsLe, show x.toNat < z.toNat by omega]
          · by_cases hzy : z.toNat < y.toNat
            · simp [charsLe, hyz, hzy] at hbc
            · simp [charsLe, show x.toNat < z.toNat by omega]
        · by_cases hyx : y.toNat < x.toNat
          · simp [charsLe, hxy, hyx] at hab
          · by_cases hyz : y.toNat < z.toNat
            · simp [charsLe, show x.toNat < z.toNat by omega, show ¬ z.toNat < x.toNat by omega]
            · by_cases hzy : z.toNat < y.toNat
              · simp [charsLe, hyz, hzy] at hbc
              · simp [charsLe, hxy, hyx] at hab
                simp [charsLe, hyz, hzy] at hbc
                simp [charsLe, show ¬ x.toNat < z.toNat by omega,
                  show ¬ z.toNat < x.toNat by omega]
                exact ih ys zs hab hbc

instance instTotalStatusAsc :
    IsTotal TaggedRecord (fun a b => charsLe a.status.data b.status.data = true) :=
  ⟨fun a b => charsLe_total a.status.data b.status.data⟩

instance instTransStatusAsc :
    IsTrans TaggedRecord (fun a b => charsLe a.status.data b.status.data = true) :=
  ⟨fun a b c => charsLe_trans a.status.data b.status.data c.status.data⟩

instance instTotalStatusDesc :
    IsTotal TaggedRecord (fun a b => charsLe b.status.data a.status.data = true) :=
  ⟨fun a b => charsLe_total b.status.data a.status.data⟩

instance instTransStatusDesc :
    IsTrans TaggedRecord (fun a b => charsLe b.status.data a.status.data = true) :=
  ⟨fun a b c hab hbc => charsLe_trans c.status.data b.status.data a.status.data hbc hab⟩

instance instTotalPresentDesc :
    IsTotal EmployeeRanking (fun x y => y.presentDays ≤ x.presentDays) :=
  ⟨fun a b => le_total b.presentDays a.presentDays⟩

instance instTransPresentDesc :
    IsTrans EmployeeRanking (fun x y => y.presentDays ≤ x.presentDays) :=
  ⟨fun _ _ _ hab hbc => le_trans hbc hab⟩

theorem upChar_toNat_of_lower (c : Char) (h : 97 ≤ c.toNat ∧ c.toNat ≤ 122) :
    (upChar c).toNat = c.toNat - 32 := by
  unfold upChar
  rw [dif_pos h]
  rfl

theorem upChar_of_not_lower (c : Char) (h : ¬(97 ≤ c.toNat ∧ c.toNat ≤ 122)) :
    upChar c = c := by
  unfold upChar
  rw [dif_neg h]

theorem upChar_not_lower (c : Char) : ¬(97 ≤ (upChar c).toNat ∧ (upChar c).toNat ≤ 122) := by
  by_cases h : 97 ≤ c.toNat ∧ c.toNat ≤ 122
  · rw [upChar_toNat_of_lower c h]
    omega
  · rw [upChar_of_not_lower c h]
    exact h

theorem upChar_idem (c : Char) : upChar (upChar c) = upChar c :=
  upChar_of_not_lower _ (upChar_not_lower c)

theorem upperString_idem (s : String) : upperString (upperString s) = upperString s := by
  unfold upperString
  simp [List.map_map, Function.comp_def, upChar_idem]

theorem jsToFixed2_nat_div (p t : ℕ) (ht : 0 < t) :
    jsToFixed2 ((p : ℚ) / (t : ℚ) * 100) = renderCents ((20000 * p + t) / (2 * t)) := by
  unfold jsToFixed2
  congr 1
  have ht' : (0 : ℚ) < t := by exact_mod_cast ht
  have hx : (p : ℚ) / t * 100 * 100 + 1 / 2 = ((20000 * p + t : ℕ) : ℚ) / ((2 * t : ℕ) : ℚ) := by
    push_cast
    field_simp
    ring
  have hfloor : ⌊(p : ℚ) / t * 100 * 100 + 1 / 2⌋ = ((20000 * p + t) / (2 * t) : ℕ) := by
    rw [hx, Int.floor_eq_iff]
    have h2t : (0 : ℚ) < ((2 * t : ℕ) : ℚ) := by positivity
    constructor
    · rw [le_div_iff₀ h2t]
      exact_mod_cast Nat.div_mul_le_self (20000 * p + t) (2 * t)
    · rw [div_lt_iff₀ h2t]
      have hd := Nat.div_add_mod (20000 * p + t) (2 * t)
      have hm := Nat.mod_lt (20000 * p + t) (show 0 < 2 * t by omega)
      have hmul : ((20000 * p + t) / (2 * t) + 1) * (2 * t) =
          2 * t * ((20000 * p + t) / (2 * t)) + 2 * t := by ring
      have : 20000 * p + t < ((20000 * p + t) / (2 * t) + 1) * (2 * t) := by omega
      exact_mod_cast this
  rw [hfloor]
  exact Int.toNat_natCast _

theorem count_filter_key {α : Type} [DecidableEq α]
    (key : α → String) (a : α) (k : String) (l : List α) :
    (l.filter (fun r => key r == k)).count a = if key a == k then l.count a else 0 := by
  by_cases h : (key a == k) = true
  · rw [if_pos h, @List.count_filter α _ _ (fun r => key r == k) a l h]
  · rw [if_neg h, List.count_eq_zero]
    intro hmem
    exact h (List.mem_filter.mp hmem).2

theorem sum_map_ite_of_nodup (x : String) (c : ℕ) (ks : List String) (hnd : ks.Nodup) :
    (ks.map (fun k => if x == k then c else 0)).sum = if x ∈ ks then c else 0 := by
  induction ks with
  | nil => simp
  | cons k ks ih =>
    have ihr := ih (List.nodup_cons.mp hnd).2
    simp only [List.map_cons, List.sum_cons]
    by_cases h : x = k
    · subst h
      have hx : x ∉ ks := (List.nodup_cons.mp hnd).1
      rw [if_pos (by simp : (x == x) = true), ihr, if_neg hx,
        if_pos (List.mem_cons_self x ks), Nat.add_zero]
    · rw [if_neg (by simp [h] : ¬((x == k) = true)), ihr, Nat.zero_add]
      simp [List.mem_cons, h]

theorem flatten_groups_perm {α : Type} [DecidableEq α]
    (key : α → String) (l : List α) :
    ((((l.map key).dedup).map (fun k => l.filter (fun r => key r == k))).flatten).Perm l := by
  rw [List.perm_iff_count]
  intro a
  rw [List.count_flatten, List.map_map]
  have hmap : ((l.map key).dedup).map (List.count a ∘ fun k => l.filter (fun r => key r == k)) =
      ((l.map key).dedup).map (fun k => if key a == k then l.count a else 0) := by
    apply List.map_congr_left
    intro k _
    exact count_filter_key key a k l
  rw [hmap, sum_map_ite_of_nodup _ _ _ (List.nodup_dedup _)]
  by_cases ha : a ∈ l
  · rw [if_pos (List.mem_dedup.mpr (List.mem_map_of_mem key ha))]
  · rw [List.count_eq_zero.mpr ha]
    simp

theorem countP_status_total (l : List AttendanceRecord)
    (h : ∀ r ∈ l, r.status = "Present" ∨ r.status = "Absent") :
    l.countP (fun r => r.status == "Present") + l.countP (fun r => r.status == "Absent") =
      l.length := by
  induction l with
  | nil => rfl
  | cons r l ih =>
    have hr := h r (List.mem_cons_self r l)
    have hrest : ∀ x ∈ l, x.status = "Present" ∨ x.status = "Absent" :=
      fun x hx => h x (List.mem_cons_of_mem r hx)
    rw [List.countP_cons, List.countP_cons, List.length_cons]
    rcases hr with hp | ha
    · simp [hp, ← ih hrest]
      omega
    · simp [ha, ← ih hrest]
      omega

/-! ## Concrete fixtures used by witnesses and counterexamples -/

/-- A stored employee with the canonical uppercase id `EMP001`. -/
def empAlice : Employee :=
  ⟨"EMP001", "Alice Johnson", "alice@example.com", "Engineering", 0⟩

/-- A second stored employee, id `EMP002`. -/
def empBob : Employee :=
  ⟨"EMP002", "Bob Smith", "bob@example.com", "Marketing", 0⟩

/-- Four attendance records for `EMP001`: three Present, one Absent. -/
def attFour : List AttendanceRecord :=
  [⟨"EMP001", 1, "Present", 1⟩, ⟨"EMP001", 2, "Present", 2⟩,
   ⟨"EMP001", 3, "Present", 3⟩, ⟨"EMP001", 4, "Absent", 4⟩]

/-- A server clock reading 10:00 UTC on 2026-02-10. -/
def nowFeb10 : Nat := dateMs 2026 2 10 + 36000000

/-- A mark-attendance request dated tomorrow relative to `nowFeb10`. -/
def futureReq : MarkRequest := ⟨"EMP001", dateMs 2026 2 11, "Present"⟩

/-! ## C1 — GET /history/employee/:employeeId is shadowed by /:year/:month -/

/-- C1: the claim states that `GET /history/employee/{employeeId}`
answers with the employee's grouped history (or 404 when the employee
is absent) regardless of the other routes on the history router.  The
code contradicts this: `/:year/:month` is registered before
`/employee/:employeeId`, captures every two-segment path, and
`parseInt('employee')` is `NaN`, so the dispatcher answers 400
"Invalid year" for every employeeId and every store state; the
employee-history handler is unreachable. -/
theorem history_employee_route_shadowed (emps : List Employee)
    (att : List AttendanceRecord) (employeeId : String)
    (startQ endQ : Option (Option Nat)) :
    historyDispatch emps att ["employee", employeeId] startQ endQ =
      some (.badRequest "Invalid year. Year must be between 2000 and 2100") := rfl

/-! ## C2 — no future-date check on POST /attendance -/

/-- C2 counterexample: with employee `EMP001` stored and an empty
attendance collection, a request dated 2026-02-11 — strictly after the
server's current day 2026-02-10 — is not rejected: the route answers
201 and a record is created. -/
theorem mark_future_date_not_rejected :
    endOfDay nowFeb10 < futureReq.date ∧
    markAttendance nowFeb10 futureReq [empAlice] [] =
      (.created ⟨"EMP001", dateMs 2026 2 11, "Present", nowFeb10⟩,
        [⟨"EMP001", dateMs 2026 2 11, "Present", nowFeb10⟩]) := by
  constructor
  · decide
  · decide

/-- C2 (amended): the `POST /attendance` route performs no future-date
check: any request whose employee exists, whose fields are valid and
whose (employeeId, day) pair is free is accepted and creates a record,
even when its date lies strictly after the server's current day; the
rejection of future-dated marks exists only in the client-side form
guard, which does reject every date strictly after the current day. -/
theorem mark_future_date_accepted (now : Nat) (req : MarkRequest)
    (emps : List Employee) (att : List AttendanceRecord)
    (hid : req.employeeId ≠ "")
    (hst : req.status = "Present" ∨ req.status = "Absent")
    (hemp : (emps.find? (fun e => e.employeeId == req.employeeId)).isSome)
    (hdup : att.find?
      (fun a => a.employeeId == req.employeeId && a.date == startOfDay req.date) = none)
    (hfut : endOfDay now < req.date) :
    markAttendance now req emps att =
      (.created ⟨req.employeeId, startOfDay req.date, req.status, now⟩,
        att ++ [⟨req.employeeId, startOfDay req.date, req.status, now⟩]) ∧
    frontendRejectsFutureDate now req.date = true := by
  constructor
  · have h1 : ¬(req.employeeId = "" ∨ req.status = "") := by
      rcases hst with h | h <;> simp [hid, h]
    obtain ⟨e, he⟩ := Option.isSome_iff_exists.mp hemp
    simp only [markAttendance, if_neg h1, if_neg (not_not_intro hst), he, hdup]
  · exact decide_eq_true hfut

/-- C2 witness for the amended statement. -/
theorem mark_future_date_accepted_witness :
    markAttendance nowFeb10 futureReq [empAlice] [] =
      (.created ⟨"EMP001", startOfDay futureReq.date, "Present", nowFeb10⟩,
        [⟨"EMP001", startOfDay futureReq.date, "Present", nowFeb10⟩]) ∧
    frontendRejectsFutureDate nowFeb10 futureReq.date = true :=
  mark_future_date_accepted nowFeb10 futureReq [empAlice] []
    (by decide) (Or.inl rfl) (by decide) (by decide) (by decide)

/-! ## C3 — attendanceRate formula and division-by-zero guard -/

/-- C3: the overview's `attendanceRate` equals
`presentCount / totalAttendanceRecords * 100` formatted to two
decimals, and is the string "0.00" when `totalAttendanceRecords` is 0,
for every store state. -/
theorem analytics_rate_formula (emps : List Employee) (att : List AttendanceRecord) :
    ((analyticsOverview emps att).totalAttendanceRecords = 0 →
      (analyticsOverview emps att).attendanceRate = "0.00") ∧
    (0 < (analyticsOverview emps att).totalAttendanceRecords →
      (analyticsOverview emps att).attendanceRate =
        jsToFixed2 (((analyticsOverview emps att).presentCount : ℚ) /
          ((analyticsOverview emps att).totalAttendanceRecords : ℚ) * 100)) := by
  constructor
  · intro h
    simp only [analyticsOverview] at h ⊢
    rw [if_neg (by omega)]
  · intro h
    simp only [analyticsOverview] at h ⊢
    rw [if_pos h]

/-- C3 witness: 3 Present of 4 records gives "75.00"; the empty store
gives "0.00". -/
theorem analytics_rate_formula_witness :
    (analyticsOverview [empAlice] attFour).attendanceRate = "75.00" ∧
    (analyticsOverview [] []).attendanceRate = "0.00" := by
  constructor
  · have h := (analytics_rate_formula [empAlice] attFour).2 (by decide)
    rw [h]
    show jsToFixed2 (((3 : ℕ) : ℚ) / ((4 : ℕ) : ℚ) * 100) = "75.00"
    rw [jsToFixed2_nat_div 3 4 (by norm_num)]
    decide
  · exact (analytics_rate_formula [] []).1 rfl

/-! ## C4 — duplicate (employeeId, day) yields 409 and leaves the store unchanged -/

/-- C4: a mark-attendance request (well-formed, employee present)
whose (employeeId, normalized-to-midnight date) pair is already
occupied answers 409 Conflict and leaves the attendance collection
unchanged — the existing record keeps its status and nothing is
inserted. -/
theorem mark_duplicate_conflict (now : Nat) (req : MarkRequest)
    (emps : List Employee) (att : List AttendanceRecord)
    (hid : req.employeeId ≠ "")
    (hst : req.status = "Present" ∨ req.status = "Absent")
    (hemp : (emps.find? (fun e => e.employeeId == req.employeeId)).isSome)
    (hdup : ∃ a ∈ att, a.employeeId = req.employeeId ∧ a.date = startOfDay req.date) :
    markAttendance now req emps att = (.conflict, att) := by
  have h1 : ¬(req.employeeId = "" ∨ req.status = "") := by
    rcases hst with h | h <;> simp [hid, h]
  obtain ⟨e, he⟩ := Option.isSome_iff_exists.mp hemp
  have hfind : (att.find?
      (fun a => a.employeeId == req.employeeId && a.date == startOfDay req.date)).isSome := by
    rw [List.find?_isSome]
    obtain ⟨a, ha, ha1, ha2⟩ := hdup
    exact ⟨a, ha, by simp [ha1, ha2]⟩
  obtain ⟨x, hx⟩ := Option.isSome_iff_exists.mp hfind
  simp only [markAttendance, if_neg h1, if_neg (not_not_intro hst), he, hx]

/-- C4 witness: an existing Absent record for (EMP001, 2026-02-10)
blocks a Present mark for 2026-02-10 10:00 — the date is normalized to
midnight before comparison — with 409 and an unchanged store. -/
theorem mark_duplicate_conflict_witness :
    markAttendance 99 ⟨"EMP001", dateMs 2026 2 10 + 36000000, "Present"⟩ [empAlice]
      [⟨"EMP001", dateMs 2026 2 10, "Absent", 7⟩] =
      (.conflict, [⟨"EMP001", dateMs 2026 2 10, "Absent", 7⟩]) :=
  mark_duplicate_conflict 99 ⟨"EMP001", dateMs 2026 2 10 + 36000000, "Present"⟩ [empAlice]
    [⟨"EMP001", dateMs 2026 2 10, "Absent", 7⟩]
    (by decide) (Or.inl rfl) (by decide)
    ⟨⟨"EMP001", dateMs 2026 2 10, "Absent", 7⟩, by decide, by decide, by decide⟩

/-! ## C5 — top-employees aggregation -/

/-- Attendance for the ranking scenario: `EMP001` Present ×3 and
Absent ×1, `EMP002` Present ×1. -/
def attScenario : List AttendanceRecord :=
  attFour ++ [⟨"EMP002", 5, "Present", 5⟩]

/-- C5: the top-employees report groups attendance by employeeId,
computes presentDays/absentDays/totalDays per bucket, inner-joins to
the employee, carries the unrounded rate presentDays/totalDays*100,
sorts by presentDays descending and keeps at most 10 rows; on the
scenario EMP001 (3 Present, 1 Absent) and EMP002 (1 Present) the
order is [EMP001, EMP002] with rates 75 and 100. -/
theorem top_employees_spec :
    topEmployeesByAttendance [empAlice, empBob] attScenario =
      [⟨"EMP001", "Alice Johnson", "Engineering", 3, 1, 4,
          ((3 : ℕ) : ℚ) / ((4 : ℕ) : ℚ) * 100⟩,
        ⟨"EMP002", "Bob Smith", "Marketing", 1, 0, 1,
          ((1 : ℕ) : ℚ) / ((1 : ℕ) : ℚ) * 100⟩] ∧
    (topEmployeesByAttendance [empAlice, empBob] attScenario).map
      (fun r => r.attendanceRate) = [75, 100] ∧
    (∀ emps att, List.Sorted (fun x y : EmployeeRanking => y.presentDays ≤ x.presentDays)
      (topEmployeesByAttendance emps att)) ∧
    (∀ emps att, (topEmployeesByAttendance emps att).length ≤ 10) ∧
    (∀ emps att r, r ∈ topEmployeesByAttendance emps att →
      r.presentDays = (att.filter (fun x => x.employeeId == r.employeeId)).countP
          (fun x => x.status == "Present") ∧
      r.absentDays = (att.filter (fun x => x.employeeId == r.employeeId)).countP
          (fun x => x.status == "Absent") ∧
      r.totalDays = (att.filter (fun x => x.employeeId == r.employeeId)).length ∧
      r.attendanceRate = (r.presentDays : ℚ) / (r.totalDays : ℚ) * 100 ∧
      ∃ e ∈ emps, e.employeeId = r.employeeId ∧ r.fullName = e.fullName ∧
        r.department = e.department) := by
  refine ⟨rfl, ?_, ?_, ?_, ?_⟩
  · have h1 : topEmployeesByAttendance [empAlice, empBob] attScenario =
        [⟨"EMP001", "Alice Johnson", "Engineering", 3, 1, 4,
            ((3 : ℕ) : ℚ) / ((4 : ℕ) : ℚ) * 100⟩,
          ⟨"EMP002", "Bob Smith", "Marketing", 1, 0, 1,
            ((1 : ℕ) : ℚ) / ((1 : ℕ) : ℚ) * 100⟩] := rfl
    rw [h1]
    simp
    norm_num
  · intro emps att
    exact List.Pairwise.sublist (List.take_sublist 10 _) (List.sorted_insertionSort _ _)
  · intro emps att
    exact List.length_take_le 10 _
  · intro emps att r hr
    have hr2 : r ∈ (topJoined emps att).insertionSort
        (fun a b => b.presentDays ≤ a.presentDays) := List.mem_of_mem_take hr
    have hr3 : r ∈ topJoined emps att := (List.perm_insertionSort _ _).mem_iff.mp hr2
    obtain ⟨g, hg, hsome⟩ := List.mem_filterMap.mp hr3
    obtain ⟨e, hfind, hre⟩ := Option.map_eq_some'.mp hsome
    obtain ⟨id, hid, hgid⟩ := List.mem_map.mp hg
    have heid : e.employeeId = g.1 := by simpa using List.find?_some hfind
    subst hre
    refine ⟨?_, ?_, ?_, ?_, e, List.mem_of_find?_eq_some hfind, heid, rfl, rfl⟩
    · rw [← hgid]
    · rw [← hgid]
    · rw [← hgid]
    · rfl

/-- The expected first row of the scenario ranking. -/
def rankAlice : EmployeeRanking :=
  ⟨"EMP001", "Alice Johnson", "Engineering", 3, 1, 4, ((3 : ℕ) : ℚ) / ((4 : ℕ) : ℚ) * 100⟩

/-- C5 witness: the per-row characterization evaluated on the
scenario's EMP001 row. -/
theorem top_employees_spec_witness :
    rankAlice.presentDays = (attScenario.filter
        (fun x => x.employeeId == rankAlice.employeeId)).countP
        (fun x => x.status == "Present") ∧
    rankAlice.absentDays = (attScenario.filter
        (fun x => x.employeeId == rankAlice.employeeId)).countP
        (fun x => x.status == "Absent") ∧
    rankAlice.totalDays = (attScenario.filter
        (fun x => x.employeeId == rankAlice.employeeId)).length ∧
    rankAlice.attendanceRate =
      (rankAlice.presentDays : ℚ) / (rankAlice.totalDays : ℚ) * 100 ∧
    ∃ e ∈ [empAlice, empBob], e.employeeId = rankAlice.employeeId ∧
      rankAlice.fullName = e.fullName ∧ rankAlice.department = e.department :=
  top_employees_spec.2.2.2.2 [empAlice, empBob] attScenario rankAlice
    (by rw [top_employees_spec.1]; exact List.mem_cons_self _ _)

/-! ## C7 — month grouping is a partition of the pipeline output -/

/-- The record list the component displays before grouping:
`sortedRecords` applied to `filteredRecords`. -/
def filteredSorted (cfg : FilterConfig) (opt : SortOption) (l : List TaggedRecord) :
    List TaggedRecord :=
  sortedRecords opt (filteredRecords cfg l)

theorem groupedData_month_eq (s : List TaggedRecord) :
    groupedData .month s =
      (buildGroups (fun r => r.monthKey) (fun r => r.monthLabel) s).insertionSort
        (fun a b => charsLe b.groupKey.data a.groupKey.data) := rfl

theorem grouped_month_flatMap_perm (s : List TaggedRecord) :
    ((groupedData .month s).flatMap (fun g => g.records)).Perm s := by
  rw [groupedData_month_eq]
  have h1 : (((buildGroups (fun r => r.monthKey) (fun r => r.monthLabel) s).insertionSort
      (fun a b => charsLe b.groupKey.data a.groupKey.data)).flatMap
        (fun g => g.records)).Perm
      ((buildGroups (fun r => r.monthKey) (fun r => r.monthLabel) s).flatMap
        (fun g => g.records)) :=
    List.Perm.flatMap_right _
      (List.perm_insertionSort (fun a b : RecordGroup => charsLe b.groupKey.data a.groupKey.data = true) _)
  have h2 : (buildGroups (fun r => r.monthKey) (fun r => r.monthLabel) s).flatMap
      (fun g => g.records) =
      (((s.map (fun r => r.monthKey)).dedup).map
        (fun k => s.filter (fun r => r.monthKey == k))).flatten := by
    show ((buildGroups (fun r => r.monthKey) (fun r => r.monthLabel) s).map
      (fun g => g.records)).flatten = _
    rw [buildGroups, List.map_map]
    rfl
  exact h1.trans (h2 ▸ flatten_groups_perm (fun r => r.monthKey) s)

theorem grouped_month_members (s : List TaggedRecord) :
    ∀ g ∈ groupedData .month s, ∀ r ∈ g.records, r.monthKey = g.groupKey := by
  intro g hg r hr
  rw [groupedData_month_eq] at hg
  have hg2 : g ∈ buildGroups (fun r => r.monthKey) (fun r => r.monthLabel) s :=
    (List.perm_insertionSort
      (fun a b : RecordGroup => charsLe b.groupKey.data a.groupKey.data = true) _).mem_iff.mp hg
  obtain ⟨k, hk, hgk⟩ := List.mem_map.mp hg2
  subst hgk
  simpa using (List.mem_filter.mp hr).2

theorem grouped_month_keys_nodup (s : List TaggedRecord) :
    ((groupedData .month s).map (fun g => g.groupKey)).Nodup := by
  rw [groupedData_month_eq]
  have hperm : (((buildGroups (fun r => r.monthKey) (fun r => r.monthLabel) s).insertionSort
      (fun a b => charsLe b.groupKey.data a.groupKey.data)).map
        (fun g => g.groupKey)).Perm
      ((buildGroups (fun r => r.monthKey) (fun r => r.monthLabel) s).map
        (fun g => g.groupKey)) :=
    (List.perm_insertionSort
      (fun a b : RecordGroup => charsLe b.groupKey.data a.groupKey.data = true) _).map _
  have hk : (buildGroups (fun r => r.monthKey) (fun r => r.monthLabel) s).map
      (fun g => g.groupKey) = (s.map (fun r => r.monthKey)).dedup := by
    rw [buildGroups, List.map_map]
    exact List.map_id _
  rw [hperm.nodup_iff, hk]
  exact List.nodup_dedup _

/-- C7: grouping the filtered-and-sorted record list by month and
flattening all groups reproduces that list as a multiset — every
record lies in the group carrying its origin month key, group keys are
pairwise distinct so the group is unique, and the pre-group total is
the sum of the group sizes. -/
theorem month_grouping_partition (cfg : FilterConfig) (opt : SortOption)
    (l : List TaggedRecord) :
    ((groupedData .month (filteredSorted cfg opt l)).flatMap (fun g => g.records)).Perm
      (filteredSorted cfg opt l) ∧
    (∀ g ∈ groupedData .month (filteredSorted cfg opt l), ∀ r ∈ g.records,
      r.monthKey = g.groupKey) ∧
    ((groupedData .month (filteredSorted cfg opt l)).map (fun g => g.groupKey)).Nodup ∧
    (filteredSorted cfg opt l).length =
      ((groupedData .month (filteredSorted cfg opt l)).map
        (fun g => g.records.length)).sum := by
  refine ⟨grouped_month_flatMap_perm _, grouped_month_members _,
    grouped_month_keys_nodup _, ?_⟩
  have h := (grouped_month_flatMap_perm (filteredSorted cfg opt l)).length_eq
  rw [List.length_flatMap] at h
  rw [← h]
  rfl

/-- C7 witness fixtures: a January record and a February record with
their origin tags. -/
def tagJan : TaggedRecord :=
  ⟨"EMP001", dateMs 2026 1 15, "Present", 1, some (snapshotOf empAlice),
    "2026-01", "January 2026"⟩

/-- February-tagged record with no resolved employee. -/
def tagFeb : TaggedRecord :=
  ⟨"EMP002", dateMs 2026 2 3, "Absent", 2, none, "2026-02", "February 2026"⟩

/-- The component's initial filter state: all months, no range, empty
search, all statuses, all departments. -/
def cfgAll : FilterConfig := ⟨"all", false, none, none, "", "all", "all"⟩

/-- C7 witness. -/
theorem month_grouping_partition_witness :
    ((groupedData .month (filteredSorted cfgAll .dateDesc [tagJan, tagFeb])).flatMap
      (fun g => g.records)).Perm (filteredSorted cfgAll .dateDesc [tagJan, tagFeb]) ∧
    tagFeb.monthKey = (⟨"2026-02", "February 2026", [tagFeb]⟩ : RecordGroup).groupKey :=
  ⟨(month_grouping_partition cfgAll .dateDesc [tagJan, tagFeb]).1,
    (month_grouping_partition cfgAll .dateDesc [tagJan, tagFeb]).2.1
      ⟨"2026-02", "February 2026", [tagFeb]⟩ (by decide) tagFeb (by decide)⟩

/-! ## C6 — GET /history/range validation and inclusive end boundary -/

theorem enrich_inj (emps : List Employee) (a b : AttendanceRecord)
    (h : enrich emps a = enrich emps b) : a = b := by
  cases a with
  | mk aid ad as ac =>
    cases b with
    | mk bid bd bs bc =>
      simp only [enrich, EnrichedRecord.mk.injEq] at h
      obtain ⟨h1, h2, h3, h4, -⟩ := h
      simp_all

theorem mem_sortDateDesc (l : List AttendanceRecord) (a : AttendanceRecord) :
    a ∈ sortDateDesc l ↔ a ∈ l := by
  unfold sortDateDesc
  exact (List.perm_insertionSort _ _).mem_iff

/-- The two scenario records for the range filter: 2026-01-31 23:00
and 2026-02-01 00:00. -/
def recLateJan : AttendanceRecord := ⟨"EMP001", dateMs 2026 1 31 + 82800000, "Present", 10⟩

/-- Record dated 2026-02-01 00:00. -/
def recFeb1 : AttendanceRecord := ⟨"EMP001", dateMs 2026 2 1, "Present", 11⟩

/-- Attendance used by the range scenario. -/
def attRange : List AttendanceRecord := [recLateJan, recFeb1]

/-- C6: `/history/range` answers 400 when a date is missing or fails
to parse or when startDate > endDate (day granularity); an accepted
range filters inclusively through 23:59:59.999 of the end day — an
attendance record is returned exactly when its date lies in
[start, endOfDay end] — and on the window 2026-01-01..2026-01-31 the
record dated 2026-01-31T23:00 is returned while 2026-02-01T00:00 is
not. -/
theorem range_filter_spec :
    (∀ emps att q, rangeHandler emps att none q =
      .badRequest "Both startDate and endDate query parameters are required") ∧
    (∀ emps att p, rangeHandler emps att (some p) none =
      .badRequest "Both startDate and endDate query parameters are required") ∧
    (∀ emps att p, rangeHandler emps att (some none) (some p) =
      .badRequest "Invalid date format. Use YYYY-MM-DD format") ∧
    (∀ emps att t, rangeHandler emps att (some (some t)) (some none) =
      .badRequest "Invalid date format. Use YYYY-MM-DD format") ∧
    (∀ emps att s e, s % msPerDay = 0 → e % msPerDay = 0 → e < s →
      rangeHandler emps att (some (some s)) (some (some e)) =
        .badRequest "Start date must be before or equal to end date") ∧
    (∀ emps att s e, s ≤ endOfDay e →
      rangeHandler emps att (some (some s)) (some (some e)) =
        .rangeHistory
          ((sortDateDesc (att.filter (fun r => s ≤ r.date ∧ r.date ≤ endOfDay e))).map
            (enrich emps))
          ((sortDateDesc (att.filter (fun r => s ≤ r.date ∧ r.date ≤ endOfDay e))).map
            (enrich emps)).length ∧
      ∀ r : AttendanceRecord,
        enrich emps r ∈
          (sortDateDesc (att.filter (fun r => s ≤ r.date ∧ r.date ≤ endOfDay e))).map
            (enrich emps) ↔ r ∈ att ∧ s ≤ r.date ∧ r.date ≤ endOfDay e) ∧
    rangeHandler [empAlice] attRange (some (some (dateMs 2026 1 1)))
      (some (some (dateMs 2026 1 31))) =
      .rangeHistory [enrich [empAlice] recLateJan] 1 := by
  refine ⟨fun _ _ q => by cases q <;> rfl, fun _ _ _ => rfl,
    fun _ _ p => by cases p <;> rfl, fun _ _ _ => rfl, ?_, ?_, by decide⟩
  · intro emps att s e hs he hlt
    have hcond : endOfDay e < s := by
      simp only [endOfDay, msPerDay] at *
      omega
    simp only [rangeHandler, if_pos hcond]
  · intro emps att s e hse
    constructor
    · simp only [rangeHandler, if_neg (not_lt.mpr hse)]
    · intro r
      constructor
      · intro hmem
        obtain ⟨a, ha, hae⟩ := List.mem_map.mp hmem
        have ha2 : a ∈ att.filter (fun r => s ≤ r.date ∧ r.date ≤ endOfDay e) :=
          (mem_sortDateDesc _ _).mp ha
        obtain ⟨hmem2, hcond⟩ := List.mem_filter.mp ha2
        have haeq : a = r := enrich_inj emps a r hae
        subst haeq
        exact ⟨hmem2, by simpa using hcond⟩
      · intro ⟨hmem, h1, h2⟩
        exact List.mem_map_of_mem _ ((mem_sortDateDesc _ _).mpr
          (List.mem_filter.mpr ⟨hmem, by exact decide_eq_true ⟨h1, h2⟩⟩))

/-- C6 witness. -/
theorem range_filter_spec_witness :
    rangeHandler [] [] none none =
      .badRequest "Both startDate and endDate query parameters are required" ∧
    rangeHandler [] [] (some (some (dateMs 2026 2 1))) (some (some (dateMs 2026 1 1))) =
      .badRequest "Start date must be before or equal to end date" ∧
    (enrich [empAlice] recLateJan ∈
      (sortDateDesc (attRange.filter (fun r => dateMs 2026 1 1 ≤ r.date ∧
        r.date ≤ endOfDay (dateMs 2026 1 31)))).map (enrich [empAlice]) ↔
      recLateJan ∈ attRange ∧ dateMs 2026 1 1 ≤ recLateJan.date ∧
        recLateJan.date ≤ endOfDay (dateMs 2026 1 31)) :=
  ⟨range_filter_spec.1 [] [] none,
    range_filter_spec.2.2.2.2.1 [] [] (dateMs 2026 2 1) (dateMs 2026 1 1)
      (by decide) (by decide) (by decide),
    (range_filter_spec.2.2.2.2.2.1 [empAlice] attRange (dateMs 2026 1 1)
      (dateMs 2026 1 31) (by decide)).2 recLateJan⟩

/-! ## C8 — presentCount + absentCount = totalAttendanceRecords on reachable stores -/

theorem reachable_status_valid {att : List AttendanceRecord}
    (h : ReachableAttendance att) :
    ∀ r ∈ att, r.status = "Present" ∨ r.status = "Absent" := by
  induction h with
  | nil => intro r hr; simp at hr
  | step att att' now req emps rec hprev heq ih =>
    intro r hr
    unfold markAttendance at heq
    by_cases h1 : req.employeeId = "" ∨ req.status = ""
    · rw [if_pos h1] at heq
      simp at heq
    · rw [if_neg h1] at heq
      by_cases h2 : ¬(req.status = "Present" ∨ req.status = "Absent")
      · rw [if_pos h2] at heq
        simp at heq
      · rw [if_neg h2] at heq
        push_neg at h2
        rcases h2 with h2 | h2
        all_goals {
          cases hfind : emps.find? (fun e => e.employeeId == req.employeeId) with
          | none =>
            simp only [hfind] at heq
            simp at heq
          | some e =>
            simp only [hfind] at heq
            cases hfind2 : att.find? (fun a =>
                a.employeeId == req.employeeId && a.date == startOfDay req.date) with
            | some x =>
              simp only [hfind2] at heq
              simp at heq
            | none =>
              simp only [hfind2, Prod.mk.injEq] at heq
              obtain ⟨-, hatt⟩ := heq
              rw [← hatt] at hr
              rcases List.mem_append.mp hr with hold | hnew
              · exact ih r hold
              · simp at hnew
                subst hnew
                simp [h2]
        }

/-- C8: on every attendance collection reachable through the
mark-attendance boundary (which admits only the statuses Present and
Absent), the summary overview satisfies
presentCount + absentCount = totalAttendanceRecords. -/
theorem overview_counts_partition (emps : List Employee) (att : List AttendanceRecord)
    (h : ReachableAttendance att) :
    (analyticsOverview emps att).presentCount + (analyticsOverview emps att).absentCount =
      (analyticsOverview emps att).totalAttendanceRecords := by
  simp only [analyticsOverview]
  exact countP_status_total att (reachable_status_valid h)

/-- One-record attendance collection written through the boundary. -/
def attOne : List AttendanceRecord := [⟨"EMP001", dateMs 2026 2 10, "Present", nowFeb10⟩]

/-- C8 witness: `attOne` is reachable (one successful mark from the
empty store) and the overview counts add up on it. -/
theorem overview_counts_partition_witness :
    (analyticsOverview [empAlice] attOne).presentCount +
      (analyticsOverview [empAlice] attOne).absentCount =
      (analyticsOverview [empAlice] attOne).totalAttendanceRecords :=
  overview_counts_partition [empAlice] attOne
    (ReachableAttendance.step [] attOne nowFeb10 ⟨"EMP001", dateMs 2026 2 10, "Present"⟩
      [empAlice] ⟨"EMP001", dateMs 2026 2 10, "Present", nowFeb10⟩
      ReachableAttendance.nil (by decide))

/-! ## C9 — status sort is plain lexical string comparison -/

/-- C9: the status sorts compare the raw status strings lexically;
since "Absent" < "Present" in that order, status-ascending puts every
Absent record before every Present record and status-descending the
reverse — the literal string comparison, not a semantic Present-first
order. -/
theorem status_sort_lexical (l : List TaggedRecord) :
    charsLe "Absent".data "Present".data = true ∧
    charsLe "Present".data "Absent".data = false ∧
    List.Pairwise (fun a b => a.status = "Present" → b.status ≠ "Absent")
      (sortedRecords .statusAsc l) ∧
    List.Pairwise (fun a b => a.status = "Absent" → b.status ≠ "Present")
      (sortedRecords .statusDesc l) := by
  refine ⟨by decide, by decide, ?_, ?_⟩
  · have hs := List.sorted_insertionSort
      (fun a b : TaggedRecord => charsLe a.status.data b.status.data = true) l
    refine List.Pairwise.imp ?_ hs
    intro a b hab hpa hba
    rw [hpa, hba] at hab
    exact absurd hab (by decide)
  · have hs := List.sorted_insertionSort
      (fun a b : TaggedRecord => charsLe b.status.data a.status.data = true) l
    refine List.Pairwise.imp ?_ hs
    intro a b hab hpa hba
    rw [hpa, hba] at hab
    exact absurd hab (by decide)

/-! ## C10 — attendance lookup is case-sensitive while creation uppercases ids -/

theorem createEmployee_upper (now : Nat) (req : EmployeeRequest) (emps : List Employee)
    (e : Employee) (emps' : List Employee)
    (hc : createEmployee now req emps = (.created e, emps')) :
    upperString e.employeeId = e.employeeId := by
  unfold createEmployee at hc
  by_cases h1 : req.employeeId = "" ∨ req.fullName = "" ∨ req.email = "" ∨
      req.department = ""
  · rw [if_pos h1] at hc
    simp at hc
  · rw [if_neg h1] at hc
    by_cases h2 : ¬ emailFormatOk (lowerString (trimString req.email)) = true
    · rw [if_pos h2] at hc
      simp at hc
    · rw [if_neg h2] at hc
      by_cases h3 : (emps.find? (fun x =>
          x.employeeId == upperString (trimString req.employeeId))).isSome = true
      · rw [if_pos h3] at hc
        simp at hc
      · rw [if_neg h3] at hc
        by_cases h4 : (emps.find? (fun x =>
            x.email == lowerString (trimString req.email))).isSome = true
        · rw [if_pos h4] at hc
          simp at hc
        · rw [if_neg h4] at hc
          by_cases h5 : ¬(idPatternOk (upperString (trimString req.employeeId)) = true ∧
              2 ≤ (trimString req.fullName).data.length)
          · rw [if_pos h5] at hc
            simp at hc
          · rw [if_neg h5] at hc
            simp only [Prod.mk.injEq, CreateResult.created.injEq] at hc
            rw [← hc.1]
            exact upperString_idem _

/-- C10: employee creation stores the employeeId upper-cased (a
created employee's id is a fixed point of upper-casing), while the
mark-attendance lookup uses the submitted id verbatim; hence a
mark-attendance request whose id differs from a stored employee's id
only in letter case answers 404 and writes nothing. -/
theorem mark_attendance_case_sensitive (now : Nat) (req : MarkRequest)
    (emps : List Employee) (att : List AttendanceRecord) (e : Employee)
    (hupper : ∀ e' ∈ emps, upperString e'.employeeId = e'.employeeId)
    (he : e ∈ emps) (hU : upperString req.employeeId = e.employeeId)
    (hne : req.employeeId ≠ e.employeeId)
    (hid : req.employeeId ≠ "")
    (hst : req.status = "Present" ∨ req.status = "Absent") :
    markAttendance now req emps att = (.notFound, att) := by
  have h1 : ¬(req.employeeId = "" ∨ req.status = "") := by
    rcases hst with h | h <;> simp [hid, h]
  have hfind : emps.find? (fun e' => e'.employeeId == req.employeeId) = none := by
    rw [List.find?_eq_none]
    intro e' he' hbeq
    have heq : e'.employeeId = req.employeeId := by simpa using hbeq
    have hfix : upperString req.employeeId = req.employeeId := by
      rw [← heq]
      exact hupper e' he'
    exact hne (by rw [← hU, hfix])
  simp only [markAttendance, if_neg h1, if_neg (not_not_intro hst), hfind]

/-- C10 witness: stored `EMP001`, request `emp001`. -/
theorem mark_attendance_case_sensitive_witness :
    markAttendance nowFeb10 ⟨"emp001", dateMs 2026 2 10, "Present"⟩ [empAlice] [] =
      (.notFound, []) :=
  mark_attendance_case_sensitive nowFeb10 ⟨"emp001", dateMs 2026 2 10, "Present"⟩
    [empAlice] [] empAlice (by decide) (by decide) (by decide) (by decide) (by decide)
    (Or.inl rfl)

end HRMS
